import Mathlib

/-!
Verification of the kubefwd core: the local address allocator
(`pkg/fwdnet`, two variants) and the service-forwarding orchestrator
(`cmd/kubefwd/services/services.go`), shallowly embedded in Lean.

External collaborators (the ICMP pinger, the `ping` binary, the
Kubernetes API, the interface controller, the hosts file) are modelled
as oracle parameters; the control flow of the embedded functions follows
the Go source line by line.
-/

namespace Kubefwd

/-! ## Address allocator (`pkg/fwdnet`, ICMP-library variant, part_000) -/

/-- Outcome of one `Allocate` call.  `parseErr` is the error returned by
`util.ParseIPRange`, `exhausted` the "No IP addresses available" error,
`panicked` the `panic(err)` taken when `ping.NewPinger` fails. -/
inductive AllocOutcome
  | ok (ip : String)
  | parseErr
  | exhausted
  | panicked
deriving DecidableEq, Repr

/-- Result of one `Allocate` call: the outcome, the updated process-wide
`allocated` table (set of claimed address strings), and the number of
liveness probes attempted (for the exactly-K-probes property). -/
structure AllocRes where
  outcome : AllocOutcome
  claimed : List String
  probes : Nat
deriving DecidableEq, Repr

/-- Split a character list at every occurrence of a separator character
(the character-level analogue of Go's `strings.Split`). -/
def splitOnChar (sep : Char) : List Char → List (List Char)
  | [] => [[]]
  | c :: rest =>
    let r := splitOnChar sep rest
    if c == sep then [] :: r
    else
      match r with
      | [] => [[c]]
      | h :: t => (c :: h) :: t

/-- Decimal value of a digit-character list, accumulator style. -/
def digitsToNat : List Char → Nat → Nat
  | [], acc => acc
  | c :: rest, acc => digitsToNat rest (acc * 10 + (c.toNat - 48))

/-- Modelled from the spec: one octet of an address-range specification;
the external range parser rejects non-numeric or out-of-range octets
("Invalid specifications fail parsing"). -/
def parseOctet (cs : List Char) : Option Nat :=
  if !cs.isEmpty && cs.all (·.isDigit) then
    let n := digitsToNat cs 0
    if n ≤ 255 then some n else none
  else none

/-- Modelled from the spec: the external collaborator `util.ParseIPRange`
for the forms used by the spec, a single address `a.b.c.d` or a
contiguous last-octet span `a.b.c.d-e` (e.g. "127.1.27.1-254"), denoting
the addresses in the range's defined order.  Invalid specifications fail. -/
def parseIPRange (s : String) : Option (List String) :=
  match splitOnChar '-' s.data with
  | [ipCs] =>
    match splitOnChar '.' ipCs with
    | [a, b, c, d] => do
      let _ ← parseOctet a
      let _ ← parseOctet b
      let _ ← parseOctet c
      let _ ← parseOctet d
      some [String.mk ipCs]
    | _ => none
  | [ipCs, hiCs] =>
    match splitOnChar '.' ipCs with
    | [a, b, c, d] => do
      let _ ← parseOctet a
      let _ ← parseOctet b
      let _ ← parseOctet c
      let lo ← parseOctet d
      let hi ← parseOctet hiCs
      if lo ≤ hi then
        some ((List.range' lo (hi + 1 - lo)).map
          (fun o =>
            String.mk (a ++ ['.'] ++ b ++ ['.'] ++ c ++ ['.']) ++ toString o))
      else none
    | _ => none
  | _ => none

/-- The allocation loop of `fwdnet.Allocate` (ICMP-library variant).
`probe ip` is the oracle for `ping.NewPinger` + `Run` + `Statistics`:
`none` means `NewPinger` returned an error (the code panics), `some k`
means the pinger ran and `stats.PacketsRecv = k` out of `Count = 3`.
A candidate already in `allocated` is skipped; an unclaimed candidate is
claimed before it is probed; a candidate with all 3 replies is skipped
(`continue`); any other candidate is returned. -/
def allocLoop (probe : String → Option Nat) :
    List String → List String → AllocRes
  | [], st => ⟨.exhausted, st, 0⟩
  | ip :: rest, st =>
    if st.contains ip then
      allocLoop probe rest st
    else
      let st' := ip :: st
      match probe ip with
      | none => ⟨.panicked, st', 1⟩
      | some k =>
        if k == 3 then
          let r := allocLoop probe rest st'
          ⟨r.outcome, r.claimed, r.probes + 1⟩
        else
          ⟨.ok ip, st', 1⟩

/-- The function `fwdnet.Allocate` (ICMP-library variant, part_000): parse the range,
then scan candidates in the range's defined order against the
process-wide `allocated` table `st`. -/
def Allocate (probe : String → Option Nat) (iprange : String)
    (st : List String) : AllocRes :=
  match parseIPRange iprange with
  | none => ⟨.parseErr, st, 0⟩
  | some cands => allocLoop probe cands st

/-- A sequence of `n` `Allocate` calls against the same range within one
process run, threading the `allocated` table; returns the outcomes in
call order and the final table. -/
def allocCalls (probe : String → Option Nat) (iprange : String) :
    Nat → List String → List AllocOutcome × List String
  | 0, st => ([], st)
  | n + 1, st =>
    let r := Allocate probe iprange st
    let rest := allocCalls probe iprange n r.claimed
    (r.outcome :: rest.1, rest.2)

/-- The addresses actually returned by a sequence of outcomes. -/
def okIps (outs : List AllocOutcome) : List String :=
  outs.filterMap fun o => match o with | .ok ip => some ip | _ => none

/-! ## Address allocator (`pkg/fwdnet`, exec-ping variant, part_001) -/

/-- Whether `pre` is a prefix of `l` (character-level, executable). -/
def leadingRun : List Char → List Char → Bool
  | [], _ => true
  | _ :: _, [] => false
  | a :: as, b :: bs => a == b && leadingRun as bs

/-- Whether `sub` occurs as a contiguous run inside `l`. -/
def containsAux (sub : List Char) : List Char → Bool
  | [] => leadingRun sub []
  | c :: t => leadingRun sub (c :: t) || containsAux sub t

/-- Go `strings.Contains`: whether `sub` occurs as a substring of `s`
(the empty pattern always occurs). -/
def goContains (s sub : String) : Bool :=
  containsAux sub.data s.data

/-- The marker the exec-ping variant looks for in the `ping` output. -/
def unreachableMsg : String := "Destination Host Unreachable"

/-- The allocation loop of the exec-ping `fwdnet.Allocate` (part_001).
`pingOut ip` is the captured standard output of
`exec.Command("ping", ip, "-c 2", "-w 10").Output()`; the returned error
is discarded by the code (`out, _ :=`), so a transport failure simply
yields whatever (possibly empty) output was produced.  A candidate is
returned iff its output contains "Destination Host Unreachable";
otherwise the loop continues. -/
def execAllocLoop (pingOut : String → String) :
    List String → List String → AllocOutcome × List String
  | [], st => (.exhausted, st)
  | ip :: rest, st =>
    if st.contains ip then
      execAllocLoop pingOut rest st
    else
      let st' := ip :: st
      if goContains (pingOut ip) unreachableMsg then
        (.ok ip, st')
      else
        execAllocLoop pingOut rest st'

/-- The function `fwdnet.Allocate` (exec-ping variant, part_001). -/
def AllocateExec (pingOut : String → String) (iprange : String)
    (st : List String) : AllocOutcome × List String :=
  match parseIPRange iprange with
  | none => (.parseErr, st)
  | some cands => execAllocLoop pingOut cands st

/-! ### Concrete probe oracles for scenario checks -/

/-- Oracle: every address answers all 3 echo requests. -/
def probeAllLive : String → Option Nat := fun _ => some 3

/-- Oracle: no address answers any echo request. -/
def probeNoneLive : String → Option Nat := fun _ => some 0

/-- Oracle for the spec scenario: 10.0.0.1 and 10.0.0.2 live,
10.0.0.3 not live. -/
def probeScenario : String → Option Nat :=
  fun ip => if ip == "10.0.0.3" then some 0 else some 3

/-! ## Service forwarding (`cmd/kubefwd/services/services.go`) -/

/-- The `k8s.io` type `intstr.IntOrString`: a service port's `TargetPort`. -/
inductive IntOrString
  | i (n : Int)
  | s (str : String)
deriving DecidableEq, Repr

/-- The method `TargetPort.String()`: the numeric form prints the number, the named
form is the name itself. -/
def IntOrString.toStr : IntOrString → String
  | .i n => toString n
  | .s str => str

/-- A container port declaration (`v1.ContainerPort`): a name and a
concrete port number. -/
structure KContainerPort where
  name : String
  containerPort : Int
deriving DecidableEq, Repr

/-- A container (`v1.Container`), reduced to the fields `services.go`
reads: its declared ports. -/
structure KContainer where
  ports : List KContainerPort
deriving DecidableEq, Repr

/-- A pod (`v1.Pod`), reduced to the fields `services.go` reads. -/
structure KPod where
  name : String
  nspace : String
  containers : List KContainer
deriving DecidableEq, Repr

/-- A service port (`v1.ServicePort`): the service-side port and the
target port (numeric or named). -/
structure KSvcPort where
  port : Int
  targetPort : IntOrString
deriving DecidableEq, Repr

/-- A service (`v1.Service`), reduced to the fields `services.go` reads:
name, selector map (as the association list the runtime iterates), and
ports. -/
structure KSvc where
  name : String
  selector : List (String × String)
  ports : List KSvcPort
deriving DecidableEq, Repr

/-- The function `mapToSelectorStr` (services.go:410-420): fold the selector map into
a comma-joined `k=v` string, prefixing a comma whenever the accumulator
is already non-empty. -/
def mapToSelectorStr (msel : List (String × String)) : String :=
  msel.foldl
    (fun selector kv =>
      let selector := if selector ≠ "" then selector ++ "," else selector
      selector ++ kv.1 ++ "=" ++ kv.2)
    ""

/-- Specification-side description of `mapToSelectorStr`'s output shape:
the pieces joined by single commas, no leading or trailing comma. -/
def joinComma : List String → String
  | [] => ""
  | [x] => x
  | x :: y :: t => x ++ "," ++ joinComma (y :: t)

/-- Go `strconv.Atoi` success predicate: an optional sign followed by at
least one digit, and the value within the signed 64-bit range. -/
def goAtoiOk (s : String) : Bool :=
  match s.data with
  | [] => false
  | c :: rest =>
    let neg := c == '-'
    let t := if c == '+' || c == '-' then rest else c :: rest
    !t.isEmpty && t.all (·.isDigit) &&
      (if neg then digitsToNat t 0 ≤ 2 ^ 63 else digitsToNat t 0 ≤ 2 ^ 63 - 1)

/-- The inner loop of `portSearch`: scan one container's port
declarations for the named port, printing the concrete port on a hit. -/
def searchPorts (portName : String) : List KContainerPort → Option String
  | [] => none
  | cp :: rest =>
    if cp.name == portName then some (toString cp.containerPort)
    else searchPorts portName rest

/-- The function `portSearch` (services.go:398-408): scan the containers in order for
a port declaration matching `portName`; return `("", false)` on a miss. -/
def portSearch (portName : String) (containers : List KContainer) :
    String × Bool :=
  match containers with
  | [] => ("", false)
  | c :: rest =>
    match searchPorts portName c.ports with
    | some p => (p, true)
    | none => portSearch portName rest

/-- The target-port resolution step of `fwdServices`
(services.go:298-306): start from `TargetPort.String()`; if that is not
numeric (`strconv.Atoi` fails), look the name up among the first pod's
container ports and substitute on a hit, otherwise keep the original
string. -/
def resolveTargetPort (targetPort : IntOrString)
    (containers : List KContainer) : String :=
  let podPort := targetPort.toStr
  if goAtoiOk podPort then podPort
  else
    let res := portSearch podPort containers
    if res.2 then res.1 else podPort

/-- One spawned forwarding session (the `PortForwardOpts` handed to the
`go fwdport.PortForward(pfo)` goroutine, restricted to the fields the
claims mention). -/
structure Session where
  service : String
  podName : String
  podPort : String
  localIP : String
  localPort : String
deriving DecidableEq, Repr

/-- The warnings `fwdServices` can log for a service. -/
inductive Warning
  | emptySelector
  | podListErr
  | noPodsReturned
  | allocErr
  | getPodErr
deriving DecidableEq, Repr

/-- The per-service outcome inside the `fwdServices` loop: skip with a
warning and continue; abort the whole process (`os.Exit(1)` on a bind
failure, or a Go `panic`); or forward, producing the allocated address
and the sessions spawned for the service's ports. -/
inductive SvcOutcome
  | skip (w : Warning)
  | abort
  | fwd (ip : String) (sessions : List Session) (ws : List Warning)
deriving DecidableEq, Repr

/-- The port loop of `fwdServices` (services.go:295-370): for each
service port, resolve the target port against the first pod's
containers, `Get` the pod (`getPodOk i` is the oracle for the API call
at port index `i`; a failure logs a warning and breaks the loop), and
spawn one session per surviving port. -/
def portLoop (getPodOk : Nat → Bool) (svc : KSvc) (pod : KPod)
    (ip : String) : List KSvcPort → Nat → List Session × List Warning
  | [], _ => ([], [])
  | p :: rest, i =>
    let podPort := resolveTargetPort p.targetPort pod.containers
    if getPodOk i then
      let s : Session :=
        ⟨svc.name, pod.name, podPort, ip, toString p.port⟩
      let r := portLoop getPodOk svc pod ip rest (i + 1)
      (s :: r.1, r.2)
    else
      ([], [.getPodErr])

/-- The body of the `fwdServices` service loop (services.go:259-371) for
one service.  `podsRes` is the pod-list collaborator's answer (`none` =
API error); `probe` drives the allocator; `bindOk ip` is the outcome of
`ip addr add ip dev iface`; `getPodOk` drives the per-port pod `Get`.
Returns the outcome and the updated allocator table. -/
def processService (probe : String → Option Nat)
    (bindOk : String → Bool) (getPodOk : Nat → Bool)
    (networkRange : String) (svc : KSvc) (podsRes : Option (List KPod))
    (st : List String) : SvcOutcome × List String :=
  if mapToSelectorStr svc.selector == "" then (.skip .emptySelector, st)
  else
    match podsRes with
    | none => (.skip .podListErr, st)
    | some [] => (.skip .noPodsReturned, st)
    | some (pod :: _) =>
      match (Allocate probe networkRange st).outcome with
      | .ok ip =>
        if bindOk ip then
          (.fwd ip (portLoop getPodOk svc pod ip svc.ports 0).1
            (portLoop getPodOk svc pod ip svc.ports 0).2,
            (Allocate probe networkRange st).claimed)
        else (.abort, (Allocate probe networkRange st).claimed)
      | .panicked => (.abort, (Allocate probe networkRange st).claimed)
      | _ => (.skip .allocErr, (Allocate probe networkRange st).claimed)

/-- The accumulated result of the `fwdServices` service loop: per
forwarded service, the allocated address with its spawned sessions (in
service order); the warnings; whether the process aborted mid-loop; and
the final allocator table. -/
structure FwdResult where
  groups : List (String × List Session)
  warnings : List Warning
  aborted : Bool
  st : List String
deriving DecidableEq, Repr

/-- The `fwdServices` service loop (services.go:259-371) over a list of
services paired with their pod-list answers.  `getPodOk sIdx pIdx` is
the pod-`Get` oracle for service index `sIdx`, port index `pIdx`.  An
abort (`os.Exit(1)`) stops the loop immediately. -/
def fwdServicesLoop (probe : String → Option Nat)
    (bindOk : String → Bool) (getPodOk : Nat → Nat → Bool)
    (networkRange : String) :
    List (KSvc × Option (List KPod)) → Nat → List String → FwdResult
  | [], _, st => ⟨[], [], false, st⟩
  | (svc, podsRes) :: rest, idx, st =>
    match processService probe bindOk (getPodOk idx) networkRange svc
        podsRes st with
    | (.skip w, st') =>
      let r := fwdServicesLoop probe bindOk getPodOk networkRange rest
        (idx + 1) st'
      ⟨r.groups, w :: r.warnings, r.aborted, r.st⟩
    | (.abort, st') => ⟨[], [], true, st'⟩
    | (.fwd ip ss ws, st') =>
      let r := fwdServicesLoop probe bindOk getPodOk networkRange rest
        (idx + 1) st'
      ⟨(ip, ss) :: r.groups, ws ++ r.warnings, r.aborted, r.st⟩

/-! ## The `services` command (`Cmd.Run`, services.go:94-227) -/

/-- One entry of the context loop (services.go:180-216): whether
`fwdcfg.GetRestConfig` and `kubernetes.NewForConfig` succeed, and the
namespace loop's inputs — per namespace, the service-list collaborator's
answer handed to `fwdServices` (`none` = the `Services(...).List` call
failed, so `fwdServices` returns an error that `Cmd.Run` merely logs). -/
structure KContext where
  restOk : Bool
  clientOk : Bool
  jobs : List (Option (List (KSvc × Option (List KPod))))

/-- The oracle environment of one `Cmd.Run` invocation: the collaborator
answers the run observes, in program order. -/
structure RunEnv where
  hasRoot : Bool
  rootErr : Option String
  hostsOk : Bool
  backupOk : Bool
  cfgPath : String
  cfgOk : Bool
  contexts : List KContext
  probe : String → Option Nat
  bindOk : String → Bool
  getPodOk : Nat → Nat → Bool
  networkRange : String
  saveOk : Bool

/-- How the context/namespace forwarding loops end: a `log.Fatalf` on a
REST-config or client-construction error, an `os.Exit(1)` from inside
`fwdServices`, or normal completion with the final allocator table. -/
inductive FwdPhase
  | fatal
  | aborted
  | finished (st : List String)
deriving DecidableEq, Repr

/-- The namespace loop (services.go:194-215): run `fwdServices` per
namespace, log (and continue past) its error, thread the allocator
table; an `os.Exit(1)` inside `fwdServices` stops everything. -/
def runNamespaces (probe : String → Option Nat)
    (bindOk : String → Bool) (getPodOk : Nat → Nat → Bool)
    (networkRange : String) :
    List (Option (List (KSvc × Option (List KPod)))) → List String →
      Bool × List String
  | [], st => (false, st)
  | none :: rest, st =>
    runNamespaces probe bindOk getPodOk networkRange rest st
  | some svcs :: rest, st =>
    let r := fwdServicesLoop probe bindOk getPodOk networkRange svcs 0 st
    if r.aborted then (true, r.st)
    else runNamespaces probe bindOk getPodOk networkRange rest r.st

/-- The context loop (services.go:180-216): fatal on REST-config or
client errors, otherwise run the namespace loop. -/
def runContexts (probe : String → Option Nat)
    (bindOk : String → Bool) (getPodOk : Nat → Nat → Bool)
    (networkRange : String) : List KContext → List String → FwdPhase
  | [], st => .finished st
  | ctx :: rest, st =>
    if !ctx.restOk then .fatal
    else if !ctx.clientOk then .fatal
    else
      let r := runNamespaces probe bindOk getPodOk networkRange ctx.jobs st
      if r.1 then .aborted
      else runContexts probe bindOk getPodOk networkRange rest r.2

/-- Synchronization events of a run: the body of each session goroutine
(`fwdport.PortForward`, the `deleteIP` teardown, `wg.Done()`), the main
goroutine's `wg.Wait()` return, and `hostFile.Save()`.  `sid` identifies
a spawned session. -/
inductive WEvent
  | pforward (sid : Nat)
  | delIP (sid : Nat)
  | done (sid : Nat)
  | joinWait
  | save
deriving DecidableEq, Repr

/-- The program order of one session goroutine (services.go:359-369):
`PortForward`, then `deleteIP`, then `wg.Done()`. -/
def goroutineEvents (sid : Nat) : List WEvent :=
  [.pforward sid, .delIP sid, .done sid]

/-- The handler `Cmd.Run` (services.go:94-227): the process exit code and the main
goroutine's barrier/persistence events.  Exit code 1 corresponds to any
`log.Fatalf` or `os.Exit(1)`; a plain `return` from the handler and a
completed run exit through the process's normal path (code 0).  The
`(hasRoot, rootErr)` pair is `utils.CheckRoot()`'s answer: on
`(false, some e)` the handler calls `log.Fatalf`, on `(false, none)` it
prints the superuser hint and returns normally.  On normal completion
the main goroutine reaches `wg.Wait()` and then calls `Save()` exactly
once, exiting 1 only if `Save` fails. -/
def cmdRun (env : RunEnv) : Nat × List WEvent :=
  if !env.hasRoot then
    match env.rootErr with
    | some _ => (1, [])
    | none => (0, [])
  else if !env.hostsOk then (1, [])
  else if !env.backupOk then (1, [])
  else if env.cfgPath == "" then (1, [])
  else if !env.cfgOk then (1, [])
  else
    match runContexts env.probe env.bindOk env.getPodOk env.networkRange
        env.contexts [] with
    | .fatal => (1, [])
    | .aborted => (1, [])
    | .finished _ =>
      if env.saveOk then (0, [.joinWait, .save])
      else (1, [.joinWait, .save])

/-- Every occurrence of `b` in the trace `t` is strictly preceded by an
occurrence of `a`: whenever `b` appears among the first `n + 1` events,
`a` already appears among the first `n`. -/
def strictlyBefore (t : List WEvent) (a b : WEvent) : Prop :=
  ∀ n, b ∈ t.take (n + 1) → a ∈ t.take n

/-! ## Allocator lemmas -/

theorem contains_iff_mem (a : String) (l : List String) :
    l.contains a = true ↔ a ∈ l := by
  simp [List.contains, List.elem_iff]

theorem contains_false_iff (a : String) (l : List String) :
    l.contains a = false ↔ a ∉ l := by
  rw [← contains_iff_mem]
  simp

theorem allocLoop_nil (probe : String → Option Nat) (st : List String) :
    allocLoop probe [] st = ⟨.exhausted, st, 0⟩ := rfl

theorem allocLoop_cons_claimed (probe : String → Option Nat)
    (ip : String) (rest st : List String) (hc : st.contains ip = true) :
    allocLoop probe (ip :: rest) st = allocLoop probe rest st := by
  have hm : ip ∈ st := (contains_iff_mem ip st).mp hc
  simp [allocLoop, hm]

theorem allocLoop_cons_panic (probe : String → Option Nat)
    (ip : String) (rest st : List String) (hc : st.contains ip = false)
    (hp : probe ip = none) :
    allocLoop probe (ip :: rest) st = ⟨.panicked, ip :: st, 1⟩ := by
  have hm : ip ∉ st := (contains_false_iff ip st).mp hc
  simp [allocLoop, hm, hp]

theorem allocLoop_cons_live (probe : String → Option Nat)
    (ip : String) (rest st : List String) (hc : st.contains ip = false)
    (hp : probe ip = some 3) :
    allocLoop probe (ip :: rest) st =
      ⟨(allocLoop probe rest (ip :: st)).outcome,
       (allocLoop probe rest (ip :: st)).claimed,
       (allocLoop probe rest (ip :: st)).probes + 1⟩ := by
  have hm : ip ∉ st := (contains_false_iff ip st).mp hc
  simp [allocLoop, hm, hp]

theorem allocLoop_cons_free (probe : String → Option Nat)
    (ip : String) (rest st : List String) (k : Nat)
    (hc : st.contains ip = false) (hp : probe ip = some k) (hk : k ≠ 3) :
    allocLoop probe (ip :: rest) st = ⟨.ok ip, ip :: st, 1⟩ := by
  have hm : ip ∉ st := (contains_false_iff ip st).mp hc
  simp [allocLoop, hm, hp, hk]

theorem allocLoop_claimed_mono (probe : String → Option Nat) :
    ∀ (cands st : List String), st ⊆ (allocLoop probe cands st).claimed := by
  intro cands
  induction cands with
  | nil => intro st; simp [allocLoop_nil]
  | cons ip rest ih =>
    intro st
    cases hc : st.contains ip with
    | true => rw [allocLoop_cons_claimed probe ip rest st hc]; exact ih st
    | false =>
      cases hp : probe ip with
      | none =>
        rw [allocLoop_cons_panic probe ip rest st hc hp]
        exact List.subset_cons_self ip st
      | some k =>
        by_cases hk : k = 3
        · subst hk
          rw [allocLoop_cons_live probe ip rest st hc hp]
          exact (List.subset_cons_self ip st).trans (ih (ip :: st))
        · rw [allocLoop_cons_free probe ip rest st k hc hp hk]
          exact List.subset_cons_self ip st

theorem allocLoop_ok_spec (probe : String → Option Nat) :
    ∀ (cands st : List String) (a : String),
      (allocLoop probe cands st).outcome = .ok a →
      a ∉ st ∧ a ∈ (allocLoop probe cands st).claimed ∧
        ∃ k, probe a = some k ∧ k ≠ 3 := by
  intro cands
  induction cands with
  | nil => intro st a h; simp [allocLoop_nil] at h
  | cons ip rest ih =>
    intro st a h
    cases hc : st.contains ip with
    | true =>
      rw [allocLoop_cons_claimed probe ip rest st hc] at h ⊢
      exact ih st a h
    | false =>
      cases hp : probe ip with
      | none =>
        rw [allocLoop_cons_panic probe ip rest st hc hp] at h
        exact absurd h (by simp)
      | some k =>
        by_cases hk : k = 3
        · subst hk
          rw [allocLoop_cons_live probe ip rest st hc hp] at h ⊢
          obtain ⟨h1, h2, h3⟩ := ih (ip :: st) a h
          exact ⟨fun hm => h1 (List.mem_cons_of_mem _ hm), h2, h3⟩
        · rw [allocLoop_cons_free probe ip rest st k hc hp hk] at h ⊢
          obtain rfl : ip = a := by simpa using h
          refine ⟨fun hm => ?_, by simp, k, hp, hk⟩
          rw [(contains_iff_mem ip st).mpr hm] at hc
          exact absurd hc (by simp)

theorem Allocate_claimed_mono (probe : String → Option Nat)
    (iprange : String) (st : List String) :
    st ⊆ (Allocate probe iprange st).claimed := by
  unfold Allocate
  cases parseIPRange iprange with
  | none => simp
  | some cands => exact allocLoop_claimed_mono probe cands st

theorem Allocate_ok_spec (probe : String → Option Nat) (iprange : String)
    (st : List String) (a : String)
    (h : (Allocate probe iprange st).outcome = .ok a) :
    a ∉ st ∧ a ∈ (Allocate probe iprange st).claimed ∧
      ∃ k, probe a = some k ∧ k ≠ 3 := by
  unfold Allocate at h ⊢
  generalize parseIPRange iprange = pr at h ⊢
  cases pr with
  | none => simp at h
  | some cands => exact allocLoop_ok_spec probe cands st a h

theorem okIps_ok (a : String) (outs : List AllocOutcome) :
    okIps (.ok a :: outs) = a :: okIps outs := by
  simp [okIps]

theorem okIps_not_ok (o : AllocOutcome) (outs : List AllocOutcome)
    (h : ∀ a, o ≠ .ok a) : okIps (o :: outs) = okIps outs := by
  cases o with
  | ok a => exact absurd rfl (h a)
  | parseErr => simp [okIps]
  | exhausted => simp [okIps]
  | panicked => simp [okIps]

theorem allocCalls_st_mono (probe : String → Option Nat) (iprange : String) :
    ∀ (n : Nat) (st : List String), st ⊆ (allocCalls probe iprange n st).2 := by
  intro n
  induction n with
  | zero => intro st; simp [allocCalls]
  | succ n ih =>
    intro st
    simp only [allocCalls]
    exact (Allocate_claimed_mono probe iprange st).trans
      (ih (Allocate probe iprange st).claimed)

theorem allocCalls_spec (probe : String → Option Nat) (iprange : String) :
    ∀ (n : Nat) (st : List String),
      (okIps (allocCalls probe iprange n st).1).Nodup ∧
      ∀ a ∈ okIps (allocCalls probe iprange n st).1,
        a ∉ st ∧ a ∈ (allocCalls probe iprange n st).2 ∧
          probe a ≠ some 3 := by
  intro n
  induction n with
  | zero => intro st; simp [allocCalls, okIps]
  | succ n ih =>
    intro st
    simp only [allocCalls]
    obtain ⟨ihnd, ihmem⟩ := ih (Allocate probe iprange st).claimed
    cases ho : (Allocate probe iprange st).outcome with
    | ok a =>
      obtain ⟨hnotst, hmem, k, hk, hk3⟩ := Allocate_ok_spec probe iprange st a ho
      rw [okIps_ok]
      constructor
      · exact List.nodup_cons.mpr ⟨fun hin => (ihmem a hin).1 hmem, ihnd⟩
      · intro b hb
        rcases List.mem_cons.mp hb with rfl | hb
        · refine ⟨hnotst, ?_, by rw [hk]; simpa using hk3⟩
          exact allocCalls_st_mono probe iprange n
            (Allocate probe iprange st).claimed hmem
        · exact ⟨fun hbst => (ihmem b hb).1
            (Allocate_claimed_mono probe iprange st hbst),
            (ihmem b hb).2.1, (ihmem b hb).2.2⟩
    | parseErr =>
      rw [okIps_not_ok _ _ (by simp)]
      exact ⟨ihnd, fun a ha => ⟨fun hst => (ihmem a ha).1
        (Allocate_claimed_mono probe iprange st hst),
        (ihmem a ha).2.1, (ihmem a ha).2.2⟩⟩
    | exhausted =>
      rw [okIps_not_ok _ _ (by simp)]
      exact ⟨ihnd, fun a ha => ⟨fun hst => (ihmem a ha).1
        (Allocate_claimed_mono probe iprange st hst),
        (ihmem a ha).2.1, (ihmem a ha).2.2⟩⟩
    | panicked =>
      rw [okIps_not_ok _ _ (by simp)]
      exact ⟨ihnd, fun a ha => ⟨fun hst => (ihmem a ha).1
        (Allocate_claimed_mono probe iprange st hst),
        (ihmem a ha).2.1, (ihmem a ha).2.2⟩⟩

theorem allocLoop_all_live (probe : String → Option Nat) :
    ∀ (cands st : List String), (∀ c ∈ cands, probe c = some 3) →
      cands.Nodup → (∀ c ∈ cands, c ∉ st) →
      allocLoop probe cands st =
        ⟨.exhausted, cands.reverse ++ st, cands.length⟩ := by
  intro cands
  induction cands with
  | nil => intro st _ _ _; simp [allocLoop_nil]
  | cons ip rest ih =>
    intro st hlive hnd hfree
    have hc : st.contains ip = false :=
      (contains_false_iff ip st).mpr (hfree ip (List.mem_cons_self ip rest))
    have hp : probe ip = some 3 := hlive ip (List.mem_cons_self ip rest)
    rw [allocLoop_cons_live probe ip rest st hc hp]
    have hrec := ih (ip :: st)
      (fun c hc' => hlive c (List.mem_cons_of_mem _ hc'))
      (List.nodup_cons.mp hnd).2
      (fun c hc' => by
        intro hmem
        rcases List.mem_cons.mp hmem with rfl | hmem
        · exact (List.nodup_cons.mp hnd).1 hc'
        · exact hfree c (List.mem_cons_of_mem _ hc') hmem)
    rw [hrec]
    simp [List.length_reverse]

/-- The first-free condition `Allocate` scans for: not already claimed in
the table `st`, and not answering all 3 probes. -/
def freeCond (probe : String → Option Nat) (st : List String)
    (c : String) : Bool :=
  !(st.contains c) && !(probe c == some 3)

theorem find?_ext (p q : String → Bool) :
    ∀ (l : List String), (∀ x ∈ l, p x = q x) → l.find? p = l.find? q := by
  intro l
  induction l with
  | nil => intro _; rfl
  | cons x rest ih =>
    intro h
    have hx := h x (List.mem_cons_self x rest)
    cases hpx : p x with
    | true =>
      rw [List.find?_cons_of_pos _ hpx, List.find?_cons_of_pos _ (hx ▸ hpx)]
    | false =>
      rw [List.find?_cons_of_neg _ (by simp [hpx]),
        List.find?_cons_of_neg _ (by simp [← hx, hpx])]
      exact ih (fun y hy => h y (List.mem_cons_of_mem _ hy))

theorem allocLoop_ok_iff (probe : String → Option Nat) :
    ∀ (cands st : List String), (∀ c ∈ cands, probe c ≠ none) →
      ∀ ip, ((allocLoop probe cands st).outcome = .ok ip ↔
        cands.find? (freeCond probe st) = some ip) := by
  intro cands
  induction cands with
  | nil => intro st _ ip; simp [allocLoop_nil]
  | cons c rest ih =>
    intro st hnp ip
    cases hc : st.contains c with
    | true =>
      have hm : c ∈ st := (contains_iff_mem c st).mp hc
      rw [allocLoop_cons_claimed probe c rest st hc]
      rw [List.find?_cons_of_neg _ (by simp [freeCond, hm])]
      exact ih st (fun x hx => hnp x (List.mem_cons_of_mem _ hx)) ip
    | false =>
      have hm : c ∉ st := (contains_false_iff c st).mp hc
      cases hp : probe c with
      | none => exact absurd hp (hnp c (List.mem_cons_self c rest))
      | some k =>
        by_cases hk : k = 3
        · subst hk
          rw [allocLoop_cons_live probe c rest st hc hp]
          rw [List.find?_cons_of_neg _ (by simp [freeCond, hp])]
          rw [ih (c :: st) (fun x hx => hnp x (List.mem_cons_of_mem _ hx)) ip]
          have hext : ∀ x ∈ rest,
              freeCond probe (c :: st) x = freeCond probe st x := by
            intro x _
            by_cases hxc : x = c
            · subst hxc; simp [freeCond, hp]
            · simp only [freeCond]
              have : (c :: st).contains x = st.contains x := by
                simp [List.contains_cons, hxc]
              rw [this]
          rw [find?_ext _ _ rest hext]
        · rw [allocLoop_cons_free probe c rest st k hc hp hk]
          rw [List.find?_cons_of_pos _ (by simp [freeCond, hm, hp, hk])]
          constructor
          · intro h
            have hci : c = ip := by simpa using h
            simp [hci]
          · intro h
            have hci : c = ip := by simpa using h
            simp [hci]

/-! ## Claim theorems: the allocator (C1-C4) -/

/-- Claim C1: within one process run, a sequence of `Allocate` calls
against a range never returns the same address twice — each returned
address is recorded in the allocation table and subsequently skipped —
and never returns an address whose liveness probe was answered by all
3 echo requests. -/
theorem allocate_seq_unique_and_not_live (probe : String → Option Nat)
    (iprange : String) (n : Nat) :
    (okIps (allocCalls probe iprange n []).1).Nodup ∧
      (∀ a ∈ okIps (allocCalls probe iprange n []).1,
        a ∈ (allocCalls probe iprange n []).2 ∧ probe a ≠ some 3) := by
  obtain ⟨hnd, hmem⟩ := allocCalls_spec probe iprange n []
  exact ⟨hnd, fun a ha => ⟨(hmem a ha).2.1, (hmem a ha).2.2⟩⟩

/-- Witness for C1: in a concrete two-call run on "10.0.0.1-2" both
returned addresses are recorded as claimed and neither answered all 3
probes. -/
theorem allocate_seq_unique_and_not_live_witness :
    "10.0.0.1" ∈ okIps (allocCalls probeNoneLive "10.0.0.1-2" 2 []).1 ∧
      "10.0.0.1" ∈ (allocCalls probeNoneLive "10.0.0.1-2" 2 []).2 ∧
      probeNoneLive "10.0.0.1" ≠ some 3 :=
  ⟨by decide,
    (allocate_seq_unique_and_not_live probeNoneLive "10.0.0.1-2" 2).2
      "10.0.0.1" (by decide)⟩

/-- Claim C2: `Allocate` scans the range's candidates in their defined
order and returns exactly the first candidate that is neither already
claimed by this process nor fully live (general characterization via
`List.find?`), together with the spec's two concrete scenarios: on
"10.0.0.1-3" with .1 and .2 live it returns 10.0.0.3, and two sequential
calls on "10.0.0.1-2" with nothing live return 10.0.0.1 then 10.0.0.2. -/
theorem allocate_first_free (probe : String → Option Nat)
    (cands st : List String) (hnp : ∀ c ∈ cands, probe c ≠ none) (ip : String) :
    ((allocLoop probe cands st).outcome = .ok ip ↔
        cands.find? (freeCond probe st) = some ip) ∧
      (Allocate probeScenario "10.0.0.1-3" []).outcome = .ok "10.0.0.3" ∧
      (Allocate probeNoneLive "10.0.0.1-2" []).outcome = .ok "10.0.0.1" ∧
      (Allocate probeNoneLive "10.0.0.1-2"
          (Allocate probeNoneLive "10.0.0.1-2" []).claimed).outcome =
        .ok "10.0.0.2" :=
  ⟨allocLoop_ok_iff probe cands st hnp ip, by decide, by decide, by decide⟩

/-- Witness for C2: the first-free characterization instantiated on the
first scenario. -/
theorem allocate_first_free_witness :
    ((allocLoop probeScenario ["10.0.0.1", "10.0.0.2", "10.0.0.3"]
        []).outcome = .ok "10.0.0.3" ↔
      ["10.0.0.1", "10.0.0.2", "10.0.0.3"].find?
        (freeCond probeScenario []) = some "10.0.0.3") ∧
    (Allocate probeScenario "10.0.0.1-3" []).outcome = .ok "10.0.0.3" :=
  ⟨(allocate_first_free probeScenario ["10.0.0.1", "10.0.0.2", "10.0.0.3"]
      [] (by decide) "10.0.0.3").1,
    (allocate_first_free probeScenario ["10.0.0.1", "10.0.0.2", "10.0.0.3"]
      [] (by decide) "10.0.0.3").2.1⟩

/-- Claim C3: if every address of a (duplicate-free) range of size K is
live — all 3 probes answered for each — then `Allocate` on a fresh
allocation table fails with the exhaustion error after probing exactly
K candidates, every candidate having been claimed along the way. -/
theorem allocate_exhaustion (probe : String → Option Nat) (iprange : String)
    (cands : List String) (hparse : parseIPRange iprange = some cands)
    (hnd : cands.Nodup) (hlive : ∀ c ∈ cands, probe c = some 3) :
    Allocate probe iprange [] =
      ⟨.exhausted, cands.reverse, cands.length⟩ := by
  unfold Allocate
  rw [hparse]
  have := allocLoop_all_live probe cands [] hlive hnd (by simp)
  simpa using this

/-- Witness for C3: on "10.0.0.1-3" with everything live, `Allocate`
exhausts after exactly 3 probes. -/
theorem allocate_exhaustion_witness :
    Allocate probeAllLive "10.0.0.1-3" [] =
      ⟨.exhausted, ["10.0.0.3", "10.0.0.2", "10.0.0.1"], 3⟩ :=
  allocate_exhaustion probeAllLive "10.0.0.1-3"
    ["10.0.0.1", "10.0.0.2", "10.0.0.3"] (by decide) (by decide) (by decide)

/-- Counterexample to claim C4: in the exec-ping variant (part_001) a
candidate whose probe suffers a transport error — `Output()` returns an
error, which the code discards, leaving empty output with zero replies —
is NOT treated as free and returned: on the one-address range
"10.0.0.1-1" with empty ping output, `Allocate` skips the candidate and
fails with exhaustion instead of returning 10.0.0.1. -/
theorem exec_variant_transport_error_not_free :
    (AllocateExec (fun _ => "") "10.0.0.1-1" []).1 = .exhausted ∧
      (AllocateExec (fun _ => "") "10.0.0.1-1" []).1 ≠ .ok "10.0.0.1" := by
  decide

/-- Claim C4 as amended: in the ICMP-library variant (part_000) a
reached unclaimed candidate whose probe yields any reply count other
than 3 — including zero replies — is treated as free and returned, and
only failure to construct the pinger is fatal (a Go `panic`); in the
exec-ping variant (part_001) a candidate is returned iff its ping output
contains "Destination Host Unreachable", so a transport error or empty
output causes the candidate to be claimed and skipped, not returned. -/
theorem probe_error_handling (probe : String → Option Nat)
    (pingOut : String → String) (c : String) (rest st : List String)
    (k : Nat) (hc : st.contains c = false) (hp : probe c = some k)
    (hk : k ≠ 3)
    (hout : goContains (pingOut c) unreachableMsg = false) :
    (allocLoop probe (c :: rest) st).outcome = .ok c ∧
      (∀ probe2 : String → Option Nat, probe2 c = none →
        (allocLoop probe2 (c :: rest) st).outcome = .panicked) ∧
      execAllocLoop pingOut (c :: rest) st =
        execAllocLoop pingOut rest (c :: st) ∧
      (∀ pingOut2 : String → String,
        goContains (pingOut2 c) unreachableMsg = true →
        (execAllocLoop pingOut2 (c :: rest) st) = (.ok c, c :: st)) := by
  have hm : c ∉ st := (contains_false_iff c st).mp hc
  refine ⟨?_, ?_, ?_, ?_⟩
  · rw [allocLoop_cons_free probe c rest st k hc hp hk]
  · intro probe2 h2
    rw [allocLoop_cons_panic probe2 c rest st hc h2]
  · simp [execAllocLoop, hm, hout]
  · intro pingOut2 h2
    simp [execAllocLoop, hm, h2]

/-- Witness for the amended C4: a concrete unclaimed candidate with zero
replies and empty ping output. -/
theorem probe_error_handling_witness :
    (allocLoop probeNoneLive ["10.0.0.9"] []).outcome = .ok "10.0.0.9" ∧
      (∀ probe2 : String → Option Nat, probe2 "10.0.0.9" = none →
        (allocLoop probe2 ["10.0.0.9"] []).outcome = .panicked) ∧
      execAllocLoop (fun _ => "") ["10.0.0.9"] [] =
        execAllocLoop (fun _ => "") [] ["10.0.0.9"] ∧
      (∀ pingOut2 : String → String,
        goContains (pingOut2 "10.0.0.9") unreachableMsg = true →
        (execAllocLoop pingOut2 ["10.0.0.9"] []) =
          (.ok "10.0.0.9", ["10.0.0.9"])) :=
  probe_error_handling probeNoneLive (fun _ => "") "10.0.0.9" [] [] 0
    (by decide) (by decide) (by decide) (by decide)

/-! ## Selector-string and port-resolution lemmas (C5, C6, C10) -/

/-- The `k=v` string one selector entry contributes. -/
def pairStr (kv : String × String) : String := kv.1 ++ "=" ++ kv.2

/-- The comma-prefixed tail the fold appends for each entry after the
first. -/
def commaGlue : List String → String
  | [] => ""
  | x :: xs => "," ++ x ++ commaGlue xs

theorem eqSign_length : ("=" : String).length = 1 := rfl

theorem commaSign_length : ("," : String).length = 1 := rfl

theorem pairStr_length (kv : String × String) :
    (pairStr kv).length = kv.1.length + 1 + kv.2.length := by
  simp [pairStr, String.length_append, eqSign_length]

theorem pairStr_ne_empty (kv : String × String) : pairStr kv ≠ "" := by
  intro h
  have h0 : (pairStr kv).length = 0 := by rw [h]; rfl
  rw [pairStr_length] at h0
  omega

theorem glue_step_ne_empty (a b : String) : a ++ "," ++ b ≠ "" := by
  intro h
  have h0 : (a ++ "," ++ b).length = 0 := by rw [h]; rfl
  rw [String.length_append, String.length_append, commaSign_length] at h0
  omega

theorem mapToSelectorStr_foldl :
    ∀ (l : List (String × String)) (acc : String), acc ≠ "" →
      List.foldl
        (fun selector kv =>
          (if selector ≠ "" then selector ++ "," else selector) ++
            kv.1 ++ "=" ++ kv.2)
        acc l = acc ++ commaGlue (l.map pairStr) := by
  intro l
  induction l with
  | nil => intro acc _; simp [commaGlue]
  | cons kv rest ih =>
    intro acc hacc
    simp only [List.foldl_cons, List.map_cons, commaGlue]
    rw [if_pos hacc]
    rw [ih (acc ++ "," ++ kv.1 ++ "=" ++ kv.2)
      (by
        intro h
        have h0 : (acc ++ "," ++ kv.1 ++ "=" ++ kv.2).length = 0 := by
          rw [h]; rfl
        simp only [String.length_append, commaSign_length,
          eqSign_length] at h0
        omega)]
    simp [pairStr, String.append_assoc]

theorem joinComma_cons (x : String) (xs : List String) :
    joinComma (x :: xs) = x ++ commaGlue xs := by
  induction xs generalizing x with
  | nil => simp [joinComma, commaGlue]
  | cons y ys ih =>
    rw [joinComma, ih y, commaGlue]
    simp [String.append_assoc]

/-- Claim C10: `mapToSelectorStr` returns the empty string iff the
selector map is empty, and on a non-empty map returns exactly one `k=v`
pair per entry, the pairs joined by single commas with no leading or
trailing comma (`joinComma` of the entry strings). -/
theorem mapToSelectorStr_spec (msel : List (String × String)) :
    mapToSelectorStr msel = joinComma (msel.map pairStr) ∧
      (mapToSelectorStr msel = "" ↔ msel = []) := by
  have heq : mapToSelectorStr msel = joinComma (msel.map pairStr) := by
    cases msel with
    | nil => rfl
    | cons kv rest =>
      unfold mapToSelectorStr
      simp only [List.foldl_cons]
      rw [show (if ("" : String) ≠ "" then ("" : String) ++ "," else "") ++
          kv.1 ++ "=" ++ kv.2 = pairStr kv by simp [pairStr]]
      rw [mapToSelectorStr_foldl rest (pairStr kv) (pairStr_ne_empty kv)]
      rw [List.map_cons, joinComma_cons]
  refine ⟨heq, ?_⟩
  constructor
  · intro h
    by_contra hne
    cases msel with
    | nil => exact hne rfl
    | cons kv rest =>
      rw [heq, List.map_cons, joinComma_cons] at h
      have h0 : (pairStr kv ++ commaGlue (rest.map pairStr)).length = 0 := by
        rw [h]; rfl
      rw [String.length_append, pairStr_length] at h0
      omega
  · intro h; rw [h]; rfl

/-- The containers of the C5 scenario pod: one container declaring the
named port `http -> 8080`. -/
def httpContainers : List KContainer := [⟨[⟨"http", 8080⟩]⟩]

/-- Claim C5: resolving the named target "http" against containers
declaring `http -> 8080` yields "8080"; a numeric target 9090 is used
unchanged; and any named target with no matching container-port
declaration is passed through unresolved. -/
theorem target_port_resolution :
    resolveTargetPort (.s "http") httpContainers = "8080" ∧
      resolveTargetPort (.i 9090) httpContainers = "9090" ∧
      ∀ (t : String) (cs : List KContainer), goAtoiOk t = false →
        (portSearch t cs).2 = false → resolveTargetPort (.s t) cs = t := by
  refine ⟨by decide, by decide, ?_⟩
  intro t cs h1 h2
  simp [resolveTargetPort, IntOrString.toStr, h1, h2]

/-- Witness for C5: the unresolved pass-through at a concrete named
target with no declaration, plus the two concrete resolutions. -/
theorem target_port_resolution_witness :
    resolveTargetPort (.s "web") [] = "web" ∧
      resolveTargetPort (.s "http") httpContainers = "8080" ∧
      resolveTargetPort (.i 9090) httpContainers = "9090" :=
  ⟨target_port_resolution.2.2 "web" [] (by decide) (by decide),
    target_port_resolution.1, target_port_resolution.2.1⟩

/-! ## Orchestrator lemmas (C6, C7) -/

theorem processService_st_mono (probe : String → Option Nat)
    (bindOk : String → Bool) (getPodOk : Nat → Bool) (networkRange : String)
    (svc : KSvc) (podsRes : Option (List KPod)) (st : List String) :
    st ⊆ (processService probe bindOk getPodOk networkRange svc podsRes
      st).2 := by
  unfold processService
  split
  · exact List.Subset.refl st
  · split
    · exact List.Subset.refl st
    · exact List.Subset.refl st
    · split
      · split
        · exact Allocate_claimed_mono probe networkRange st
        · exact Allocate_claimed_mono probe networkRange st
      · exact Allocate_claimed_mono probe networkRange st
      · exact Allocate_claimed_mono probe networkRange st

theorem portLoop_localIP (getPodOk : Nat → Bool) (svc : KSvc) (pod : KPod)
    (ip : String) :
    ∀ (ports : List KSvcPort) (i : Nat),
      ∀ s ∈ (portLoop getPodOk svc pod ip ports i).1, s.localIP = ip := by
  intro ports
  induction ports with
  | nil => intro i s hs; simp [portLoop] at hs
  | cons p rest ih =>
    intro i s hs
    simp only [portLoop] at hs
    by_cases hg : getPodOk i = true
    · rw [if_pos hg] at hs
      rcases List.mem_cons.mp hs with rfl | hs
      · rfl
      · exact ih (i + 1) s hs
    · rw [if_neg hg] at hs
      simp at hs

theorem processService_fwd_spec (probe : String → Option Nat)
    (bindOk : String → Bool) (getPodOk : Nat → Bool) (networkRange : String)
    (svc : KSvc) (podsRes : Option (List KPod)) (st st' : List String)
    (ip : String) (ss : List Session) (ws : List Warning)
    (h : processService probe bindOk getPodOk networkRange svc podsRes st =
      (.fwd ip ss ws, st')) :
    ip ∉ st ∧ ip ∈ st' ∧ (∀ s ∈ ss, s.localIP = ip) := by
  unfold processService at h
  split at h
  · exact absurd h (by simp)
  · split at h
    · exact absurd h (by simp)
    · exact absurd h (by simp)
    · rename_i podsRes0 pod rest2
      split at h
      · rename_i ip0 heq
        split at h
        · simp only [Prod.mk.injEq, SvcOutcome.fwd.injEq] at h
          obtain ⟨⟨hip, hss, _⟩, hst⟩ := h
          obtain ⟨h1, h2, _⟩ :=
            Allocate_ok_spec probe networkRange st ip0 heq
          rw [← hip, ← hst]
          refine ⟨h1, h2, ?_⟩
          intro s hs
          rw [← hss] at hs
          exact portLoop_localIP getPodOk svc pod ip0 svc.ports 0 s hs
        · exact absurd h (by simp)
      · exact absurd h (by simp)
      · exact absurd h (by simp)

theorem fwdLoop_groups_spec (probe : String → Option Nat)
    (bindOk : String → Bool) (getPodOk : Nat → Nat → Bool)
    (networkRange : String) :
    ∀ (svcs : List (KSvc × Option (List KPod))) (idx : Nat)
      (st : List String),
      ((fwdServicesLoop probe bindOk getPodOk networkRange svcs idx
          st).groups.map Prod.fst).Nodup ∧
      ∀ g ∈ (fwdServicesLoop probe bindOk getPodOk networkRange svcs idx
          st).groups, g.1 ∉ st ∧ ∀ s ∈ g.2, s.localIP = g.1 := by
  intro svcs
  induction svcs with
  | nil => intro idx st; simp [fwdServicesLoop]
  | cons sp rest ih =>
    intro idx st
    obtain ⟨svc, podsRes⟩ := sp
    simp only [fwdServicesLoop]
    cases hps : processService probe bindOk (getPodOk idx) networkRange svc
        podsRes st with
    | mk outc st' =>
      have hmono : st ⊆ st' := by
        have := processService_st_mono probe bindOk (getPodOk idx)
          networkRange svc podsRes st
        rw [hps] at this
        exact this
      cases outc with
      | skip w =>
        obtain ⟨ihnd, ihg⟩ := ih (idx + 1) st'
        refine ⟨ihnd, ?_⟩
        intro g hg
        exact ⟨fun hmem => (ihg g hg).1 (hmono hmem), (ihg g hg).2⟩
      | abort => simp
      | fwd ip ss ws =>
        obtain ⟨ihnd, ihg⟩ := ih (idx + 1) st'
        obtain ⟨hip_st, hip_st', hss⟩ := processService_fwd_spec probe bindOk
          (getPodOk idx) networkRange svc podsRes st st' ip ss ws hps
        constructor
        · rw [List.map_cons]
          refine List.nodup_cons.mpr ⟨?_, ihnd⟩
          intro hin
          obtain ⟨g, hg, hg1⟩ := List.mem_map.mp hin
          exact (ihg g hg).1 (hg1 ▸ hip_st')
        · intro g hg
          rcases List.mem_cons.mp hg with rfl | hg
          · exact ⟨hip_st, hss⟩
          · exact ⟨fun hmem => (ihg g hg).1 (hmono hmem), (ihg g hg).2⟩

theorem processService_empty_selector (probe : String → Option Nat)
    (bindOk : String → Bool) (getPodOk : Nat → Bool) (networkRange : String)
    (svc : KSvc) (podsRes : Option (List KPod)) (st : List String)
    (hsel : svc.selector = []) :
    processService probe bindOk getPodOk networkRange svc podsRes st =
      (.skip .emptySelector, st) := by
  unfold processService
  rw [hsel]
  rfl

/-! ## Claim theorems: the orchestrator (C5-C7, C10 above) -/

/-- Claim C6: a service whose selector map is empty produces zero
sessions (no allocation — the table is untouched — no binding, no
spawned session), exactly one warning and never an error or abort, and
the service loop continues with the next service unchanged. -/
theorem empty_selector_warns_and_continues (probe : String → Option Nat)
    (bindOk : String → Bool) (getPodOk : Nat → Nat → Bool)
    (networkRange : String) (svc : KSvc) (podsRes : Option (List KPod))
    (rest : List (KSvc × Option (List KPod))) (idx : Nat) (st : List String)
    (hsel : svc.selector = []) :
    processService probe bindOk (getPodOk idx) networkRange svc podsRes st =
        (.skip .emptySelector, st) ∧
      fwdServicesLoop probe bindOk getPodOk networkRange
          ((svc, podsRes) :: rest) idx st =
        ⟨(fwdServicesLoop probe bindOk getPodOk networkRange rest (idx + 1)
            st).groups,
          .emptySelector :: (fwdServicesLoop probe bindOk getPodOk
            networkRange rest (idx + 1) st).warnings,
          (fwdServicesLoop probe bindOk getPodOk networkRange rest (idx + 1)
            st).aborted,
          (fwdServicesLoop probe bindOk getPodOk networkRange rest (idx + 1)
            st).st⟩ := by
  have hp := processService_empty_selector probe bindOk (getPodOk idx)
    networkRange svc podsRes st hsel
  refine ⟨hp, ?_⟩
  simp only [fwdServicesLoop]
  rw [hp]

/-- Witness for C6: a concrete empty-selector service is skipped with
one warning and an untouched allocation table. -/
theorem empty_selector_warns_and_continues_witness :
    processService probeNoneLive (fun _ => true) (fun _ => true)
        "10.0.0.1-2" ⟨"hdls", [], []⟩ (some []) [] =
        (.skip .emptySelector, []) ∧
      fwdServicesLoop probeNoneLive (fun _ => true) (fun _ _ => true)
          "10.0.0.1-2" [(⟨"hdls", [], []⟩, some [])] 0 [] =
        ⟨(fwdServicesLoop probeNoneLive (fun _ => true) (fun _ _ => true)
            "10.0.0.1-2" [] 1 []).groups,
          .emptySelector :: (fwdServicesLoop probeNoneLive (fun _ => true)
            (fun _ _ => true) "10.0.0.1-2" [] 1 []).warnings,
          (fwdServicesLoop probeNoneLive (fun _ => true) (fun _ _ => true)
            "10.0.0.1-2" [] 1 []).aborted,
          (fwdServicesLoop probeNoneLive (fun _ => true) (fun _ _ => true)
            "10.0.0.1-2" [] 1 []).st⟩ :=
  empty_selector_warns_and_continues probeNoneLive (fun _ => true)
    (fun _ _ => true) "10.0.0.1-2" ⟨"hdls", [], []⟩ (some []) [] 0 [] rfl

/-- The C7 counterexample service: one service with two ports, backed by
one pod declaring `http -> 8080`. -/
def svcFoo : KSvc := ⟨"foo", [("app", "foo")], [⟨80, .s "http"⟩, ⟨443, .i 8443⟩]⟩

/-- The backing pod of `svcFoo`. -/
def podFoo : KPod := ⟨"pod1", "ns", httpContainers⟩

/-- The C7 counterexample run: forwarding `svcFoo` on range
"10.0.0.1-2" with nothing live. -/
def runTwoPorts : FwdResult :=
  fwdServicesLoop probeNoneLive (fun _ => true) (fun _ _ => true)
    "10.0.0.1-2" [(svcFoo, some [podFoo])] 0 []

/-- Counterexample to claim C7: a service with two ports allocates one
address and spawns two distinct concurrently-active sessions on it, so a
claimed address does not map to at most one active session. -/
theorem two_sessions_share_claimed_address :
    runTwoPorts.groups =
      [("10.0.0.1",
        [⟨"foo", "pod1", "8080", "10.0.0.1", "80"⟩,
          ⟨"foo", "pod1", "8443", "10.0.0.1", "443"⟩])] ∧
      (⟨"foo", "pod1", "8080", "10.0.0.1", "80"⟩ : Session) ≠
        ⟨"foo", "pod1", "8443", "10.0.0.1", "443"⟩ ∧
      Session.localIP ⟨"foo", "pod1", "8080", "10.0.0.1", "80"⟩ =
        Session.localIP ⟨"foo", "pod1", "8443", "10.0.0.1", "443"⟩ := by
  decide

/-- Claim C7 as amended: each claimed address is allocated to at most
one service of the run — the allocated addresses of the forwarded
services are pairwise distinct — and every session of a forwarded
service runs on that service's single allocated address (so sessions
for the several ports of one service share it). -/
theorem claimed_address_unique_per_service (probe : String → Option Nat)
    (bindOk : String → Bool) (getPodOk : Nat → Nat → Bool)
    (networkRange : String) (svcs : List (KSvc × Option (List KPod)))
    (idx : Nat) :
    ((fwdServicesLoop probe bindOk getPodOk networkRange svcs idx
        []).groups.map Prod.fst).Nodup ∧
      ∀ g ∈ (fwdServicesLoop probe bindOk getPodOk networkRange svcs idx
        []).groups, ∀ s ∈ g.2, s.localIP = g.1 := by
  obtain ⟨hnd, hg⟩ := fwdLoop_groups_spec probe bindOk getPodOk
    networkRange svcs idx []
  exact ⟨hnd, fun g hgm s hs => (hg g hgm).2 s hs⟩

/-- Witness for the amended C7: in the concrete two-port run, the
spawned session indeed carries its service's allocated address. -/
theorem claimed_address_unique_per_service_witness :
    Session.localIP ⟨"foo", "pod1", "8080", "10.0.0.1", "80"⟩ =
      "10.0.0.1" :=
  (claimed_address_unique_per_service probeNoneLive (fun _ => true)
      (fun _ _ => true) "10.0.0.1-2" [(svcFoo, some [podFoo])] 0).2
    ("10.0.0.1",
      [⟨"foo", "pod1", "8080", "10.0.0.1", "80"⟩,
        ⟨"foo", "pod1", "8443", "10.0.0.1", "443"⟩])
    (by decide) ⟨"foo", "pod1", "8080", "10.0.0.1", "80"⟩ (by decide)

/-! ## Run-level lemmas (C8, C9) -/

theorem strictlyBefore_trans (t : List WEvent) (a b c : WEvent)
    (h1 : strictlyBefore t a b) (h2 : strictlyBefore t b c) :
    strictlyBefore t a c := by
  intro n hc
  have hb : b ∈ t.take n := h2 n hc
  cases n with
  | zero => simp at hb
  | succ m =>
    have ha : a ∈ t.take m := h1 m hb
    have : t.take m = (t.take (m + 1)).take m := by
      rw [List.take_take]
      simp [Nat.min_def]
    rw [this] at ha
    exact List.take_subset m (t.take (m + 1)) ha

theorem strictlyBefore_nil (a b : WEvent) : strictlyBefore [] a b := by
  intro n h
  simp at h

theorem strictlyBefore_iff_bounded (t : List WEvent) (a b : WEvent) :
    strictlyBefore t a b ↔
      ∀ n < t.length + 1, (b ∈ t.take (n + 1) → a ∈ t.take n) := by
  constructor
  · intro h n _ hb
    exact h n hb
  · intro h n hb
    by_cases hn : n < t.length + 1
    · exact h n hn hb
    · have hlen : t.length ≤ n := by omega
      have hb' : b ∈ t := by
        rw [← List.take_of_length_le (by omega : t.length ≤ n + 1)]
        exact hb
      have ha : a ∈ t.take t.length := by
        apply h t.length (by omega)
        rw [List.take_of_length_le (by omega : t.length ≤ t.length + 1)]
        exact hb'
      rw [List.take_length] at ha
      rw [List.take_of_length_le hlen]
      exact ha

instance (t : List WEvent) (a b : WEvent) : Decidable (strictlyBefore t a b) :=
  decidable_of_iff _ (strictlyBefore_iff_bounded t a b).symm

theorem strictlyBefore_two (a b : WEvent) (hne : b ≠ a) :
    strictlyBefore [a, b] a b := by
  intro n hb
  cases n with
  | zero =>
    simp [List.take_cons] at hb
    exact absurd hb hne
  | succ m => simp [List.take_cons]

theorem count_nil_le : ([] : List WEvent).count WEvent.save ≤ 1 := by decide

theorem count_js :
    ([WEvent.joinWait, WEvent.save]).count WEvent.save ≤ 1 := by decide

theorem sb_js :
    strictlyBefore [WEvent.joinWait, WEvent.save] .joinWait .save :=
  strictlyBefore_two _ _ (by simp)

/-! ## Claim theorems: the run (C8, C9) -/

/-- The concrete C8 counterexample environment: the privilege check
reports non-root with a `nil` error (`utils.CheckRoot`'s ordinary
not-root answer). -/
def envNotRoot : RunEnv :=
  ⟨false, none, true, true, "cfg", true, [], probeNoneLive,
    fun _ => true, fun _ _ => true, "10.0.0.1-2", true⟩

/-- Counterexample to claim C8: when the privilege check reports
non-root without an error, `Cmd.Run` prints the superuser hint and
returns through the normal exit path — the process exits 0, not 1. -/
theorem privilege_failure_exits_zero :
    envNotRoot.hasRoot = false ∧ envNotRoot.rootErr = none ∧
      (cmdRun envNotRoot).1 = 0 := by
  decide

/-- Claim C8 as amended: the process exits 1 when the privilege check
returns an error, and on an interface-binding failure, which aborts the
whole process (the run never reaches the join barrier or `Save`); a
completed run exits 0; but a privilege-check failure without an
accompanying error exits 0 after printing the diagnostic. -/
theorem run_exit_codes (env : RunEnv) :
    (env.hasRoot = false → ∀ e, env.rootErr = some e → (cmdRun env).1 = 1) ∧
      (env.hasRoot = false → env.rootErr = none → (cmdRun env).1 = 0) ∧
      (env.hasRoot = true → env.hostsOk = true → env.backupOk = true →
        env.cfgPath ≠ "" → env.cfgOk = true →
        runContexts env.probe env.bindOk env.getPodOk env.networkRange
          env.contexts [] = .aborted →
        (cmdRun env).1 = 1 ∧ (cmdRun env).2 = []) ∧
      (env.hasRoot = true → env.hostsOk = true → env.backupOk = true →
        env.cfgPath ≠ "" → env.cfgOk = true → env.saveOk = true →
        ∀ stf, runContexts env.probe env.bindOk env.getPodOk
          env.networkRange env.contexts [] = .finished stf →
        (cmdRun env).1 = 0) := by
  refine ⟨?_, ?_, ?_, ?_⟩
  · intro h1 e h2
    simp [cmdRun, h1, h2]
  · intro h1 h2
    simp [cmdRun, h1, h2]
  · intro h1 h2 h3 h4 h5 h6
    constructor
    · simp [cmdRun, h1, h2, h3, h4, h5, h6]
    · simp [cmdRun, h1, h2, h3, h4, h5, h6]
  · intro h1 h2 h3 h4 h5 h6 stf h7
    simp [cmdRun, h1, h2, h3, h4, h5, h6, h7]

/-- A concrete environment whose privilege check fails with an error. -/
def envRootErr : RunEnv :=
  ⟨false, some "user lookup failed", true, true, "cfg", true, [],
    probeNoneLive, fun _ => true, fun _ _ => true, "10.0.0.1-2", true⟩

/-- A concrete environment for a completed run. -/
def envNormal : RunEnv :=
  ⟨true, none, true, true, "cfg", true, [], probeNoneLive,
    fun _ => true, fun _ _ => true, "10.0.0.1-2", true⟩

/-- Witness for the amended C8: the concrete error-failing and normal
runs exit 1 and 0 respectively. -/
theorem run_exit_codes_witness :
    (cmdRun envRootErr).1 = 1 ∧ (cmdRun envNormal).1 = 0 :=
  ⟨(run_exit_codes envRootErr).1 (by decide) "user lookup failed" (by decide),
    (run_exit_codes envNormal).2.2.2 (by decide) (by decide) (by decide)
      (by decide) (by decide) (by decide) [] (by decide)⟩

/-- Claim C9: `hostFile.Save()` runs at most once per run and only
strictly after the `wg.Wait()` join barrier returns; each session
goroutine performs its `deleteIP` teardown strictly before its
`wg.Done()`; and in every event interleaving consistent with these
program orders and with the barrier semantics — every spawned session's
`Done` precedes the `wg.Wait()` return — every session's teardown
strictly precedes `Save`, so `Save` never runs while a teardown is
pending. -/
theorem save_once_after_barrier :
    (∀ env : RunEnv, (cmdRun env).2.count WEvent.save ≤ 1 ∧
      strictlyBefore (cmdRun env).2 .joinWait .save) ∧
      (∀ sid, strictlyBefore (goroutineEvents sid) (.delIP sid)
        (.done sid)) ∧
      (∀ (t : List WEvent) (sids : List Nat),
        (∀ sid ∈ sids, strictlyBefore t (.delIP sid) (.done sid)) →
        (∀ sid ∈ sids, strictlyBefore t (.done sid) .joinWait) →
        strictlyBefore t .joinWait .save →
        ∀ sid ∈ sids, strictlyBefore t (.delIP sid) .save) := by
  refine ⟨?_, ?_, ?_⟩
  · intro env
    unfold cmdRun
    split
    · split
      · exact ⟨count_nil_le, strictlyBefore_nil _ _⟩
      · exact ⟨count_nil_le, strictlyBefore_nil _ _⟩
    · split
      · exact ⟨count_nil_le, strictlyBefore_nil _ _⟩
      · split
        · exact ⟨count_nil_le, strictlyBefore_nil _ _⟩
        · split
          · exact ⟨count_nil_le, strictlyBefore_nil _ _⟩
          · split
            · exact ⟨count_nil_le, strictlyBefore_nil _ _⟩
            · split
              · exact ⟨count_nil_le, strictlyBefore_nil _ _⟩
              · exact ⟨count_nil_le, strictlyBefore_nil _ _⟩
              · split
                · exact ⟨count_js, sb_js⟩
                · exact ⟨count_js, sb_js⟩
  · intro sid n h
    cases n with
    | zero => simp [goroutineEvents] at h
    | succ m =>
      cases m with
      | zero => simp [goroutineEvents] at h
      | succ k => simp [goroutineEvents, List.take_cons]
  · intro t sids h1 h2 h3 sid hsid
    exact strictlyBefore_trans t _ _ _
      (strictlyBefore_trans t _ _ _ (h1 sid hsid) (h2 sid hsid)) h3

/-- Witness for C9: on the canonical single-session interleaving the
teardown precedes `Save`. -/
theorem save_once_after_barrier_witness :
    strictlyBefore
      [WEvent.pforward 0, .delIP 0, .done 0, .joinWait, .save]
      (.delIP 0) .save :=
  save_once_after_barrier.2.2
    [WEvent.pforward 0, .delIP 0, .done 0, .joinWait, .save] [0]
    (by decide) (by decide) (by decide) 0 (by decide)

end Kubefwd
